import Mathlib

/-
Verification development for the AFSA traffic-signal optimizer
(backend/ml/optimization/afsa.py).

Positions are vectors of real numbers (`Vec n`), modelling Python floats.
Fitness values live in `WithBot ℝ`, where `⊥` models `float('-inf')`.

Randomness: the Python code draws from the ambient global generators
(`random.uniform`, `random.choice`, `np.random.uniform`); the code takes no
seed argument.  We model the random source as an explicit `RandomSource`
record of draw streams, addressed by call site:
- `initDraw i j` models the `random.random()` value underlying
  `random.uniform(lower[j], upper[j])` for fish `i`, coordinate `j`
  (Python: `uniform(a, b) = a + (b - a) * random()`);
- `dirDraw iter i t` models the already-normalized direction
  `d / ‖d‖` with `d = np.random.uniform(-1, 1, dims)` drawn at trial `t`
  of the prey loop for fish `i` in generation `iter`;
- `behDraw iter i` models `random.choice(['prey', 'swarm', 'follow'])`.
-/

noncomputable section

open scoped Classical BigOperators

/-- A candidate position: one real green time per signal phase. -/
abbrev Vec (n : ℕ) := Fin n → ℝ

/-- The three fish behaviors chosen by `random.choice` in `optimize`. -/
inductive Behavior where
  | prey
  | swarm
  | follow

/-- Explicit model of the ambient random draws consumed by the algorithm. -/
structure RandomSource (n : ℕ) where
  initDraw : ℕ → Fin n → ℝ
  dirDraw : ℕ → ℕ → ℕ → Vec n
  behDraw : ℕ → ℕ → Behavior

/-- Hyperparameters of `ArtificialFishSwarmAlgorithm.__init__` (afsa.py 16-39),
with the source defaults. -/
structure ArtificialFishSwarmAlgorithm where
  num_fish : ℕ := 50
  max_iterations : ℕ := 100
  visual_range : ℝ := 5
  crowd_factor : ℝ := 0.618
  step_size : ℝ := 0.5
  try_number : ℕ := 10

/-- Mutable instance state of the Python object: `self.best_solution`
(initially `None`) and `self.best_fitness` (initially `-inf`), afsa.py 40-41. -/
structure AFSAState (n : ℕ) where
  best_solution : Option (Vec n)
  best_fitness : WithBot ℝ

/-- Euclidean norm `np.linalg.norm(v)`. -/
def vecNorm {n : ℕ} (v : Vec n) : ℝ :=
  Real.sqrt (∑ j, (v j) ^ 2)

/-- Euclidean distance `np.linalg.norm(v - w)`. -/
def vecDist {n : ℕ} (v w : Vec n) : ℝ :=
  vecNorm (fun j => v j - w j)

/-- The direction-normalization step of swarm/follow (afsa.py 158-160, 222-224):
`if np.linalg.norm(direction) > 0: direction = direction / np.linalg.norm(direction)`. -/
def normalizeDir {n : ℕ} (v : Vec n) : Vec n :=
  if 0 < vecNorm v then fun j => v j / vecNorm v else v

/-- Coordinatewise clamp `max(lower[j], min(upper[j], x[j]))`
(afsa.py 97-98, 165-166, 229-230). -/
def clampToBounds {n : ℕ} (lower upper v : Vec n) : Vec n :=
  fun j => max (lower j) (min (upper j) (v j))

/-- Model of `initialize_population` (afsa.py 43-64): each coordinate is
`random.uniform(lower[j], upper[j]) = lower[j] + (upper[j] - lower[j]) * u`
with `u = R.initDraw i j` the underlying unit draw. -/
def initPopulation {n : ℕ} (A : ArtificialFishSwarmAlgorithm)
    (lower upper : Vec n) (R : RandomSource n) : List (Vec n) :=
  (List.range A.num_fish).map
    (fun i => fun j => lower j + (upper j - lower j) * R.initDraw i j)

/-- One trial position of the prey loop (afsa.py 90-98): step `visual_range`
along the sampled direction `dirs t`, then clamp into bounds. -/
def preyTrial {n : ℕ} (A : ArtificialFishSwarmAlgorithm)
    (lower upper : Vec n) (dirs : ℕ → Vec n) (current : Vec n) (t : ℕ) : Vec n :=
  clampToBounds lower upper (fun j => current j + A.visual_range * dirs t j)

/-- The trial loop of `prey_behavior` (afsa.py 87-108): `fuel` trials remain,
the next trial index is `t`, `cf` is the fitness of the current position.
The first trial whose fitness strictly exceeds `cf` is returned; if all
trials fail, the current position is returned unchanged. -/
def preyGo {n : ℕ} (A : ArtificialFishSwarmAlgorithm) (f : Vec n → WithBot ℝ)
    (lower upper : Vec n) (dirs : ℕ → Vec n) (current : Vec n)
    (cf : WithBot ℝ) : ℕ → ℕ → Vec n
  | _, 0 => current
  | t, fuel + 1 =>
      let newPosition := preyTrial A lower upper dirs current t
      if cf < f newPosition then newPosition
      else preyGo A f lower upper dirs current cf (t + 1) fuel

/-- Model of `prey_behavior` (afsa.py 66-108). -/
def prey_behavior {n : ℕ} (A : ArtificialFishSwarmAlgorithm)
    (f : Vec n → WithBot ℝ) (lower upper : Vec n) (dirs : ℕ → Vec n)
    (current : Vec n) : Vec n :=
  preyGo A f lower upper dirs current (f current) 0 A.try_number

/-- Neighbor collection of swarm (afsa.py 133-137): population members at
distance strictly between `0` and `visual_range` from the current fish,
multiplicity preserved. -/
def neighborsOf {n : ℕ} (A : ArtificialFishSwarmAlgorithm)
    (current : Vec n) (population : List (Vec n)) : List (Vec n) :=
  population.filter
    (fun fish => decide (0 < vecDist fish current ∧ vecDist fish current < A.visual_range))

/-- Centroid of the neighbor list (afsa.py 144-147). -/
def swarmCenter {n : ℕ} (neighbors : List (Vec n)) : Vec n :=
  fun j => (neighbors.map (fun v => v j)).sum / (neighbors.length : ℝ)

/-- Model of `swarm_behavior` (afsa.py 110-171). -/
def swarm_behavior {n : ℕ} (A : ArtificialFishSwarmAlgorithm)
    (f : Vec n → WithBot ℝ) (lower upper : Vec n) (dirs : ℕ → Vec n)
    (current : Vec n) (population : List (Vec n)) : Vec n :=
  let neighbors := neighborsOf A current population
  if neighbors = [] then current
  else if A.crowd_factor < (neighbors.length : ℝ) / (A.num_fish : ℝ) then
    prey_behavior A f lower upper dirs current
  else if f current < f (swarmCenter neighbors) then
    clampToBounds lower upper
      (fun j => current j +
        A.step_size * normalizeDir (fun j2 => swarmCenter neighbors j2 - current j2) j)
  else prey_behavior A f lower upper dirs current

/-- The best-neighbor scan of `follow_behavior` (afsa.py 196-205): a fold over
the population, starting from `(None, -inf)`, replacing the accumulator by any
neighbor whose fitness strictly exceeds the accumulated fitness. -/
def followScan {n : ℕ} (A : ArtificialFishSwarmAlgorithm)
    (f : Vec n → WithBot ℝ) (current : Vec n) (population : List (Vec n)) :
    Option (Vec n) × WithBot ℝ :=
  population.foldl
    (fun acc fish =>
      if 0 < vecDist fish current ∧ vecDist fish current < A.visual_range then
        if acc.2 < f fish then (some fish, f fish) else acc
      else acc)
    (none, ⊥)

/-- Model of `follow_behavior` (afsa.py 173-232). -/
def follow_behavior {n : ℕ} (A : ArtificialFishSwarmAlgorithm)
    (f : Vec n → WithBot ℝ) (lower upper : Vec n) (dirs : ℕ → Vec n)
    (current : Vec n) (population : List (Vec n)) : Vec n :=
  let scan := followScan A f current population
  match scan.1 with
  | none => prey_behavior A f lower upper dirs current
  | some best =>
      if scan.2 ≤ f current then prey_behavior A f lower upper dirs current
      else
        let cnt := (population.filter
          (fun fish => decide (vecDist fish best < A.visual_range))).length
        if A.crowd_factor < (cnt : ℝ) / (A.num_fish : ℝ) then
          prey_behavior A f lower upper dirs current
        else
          clampToBounds lower upper
            (fun j => current j +
              A.step_size * normalizeDir (fun j2 => best j2 - current j2) j)

/-- One fish update inside the generational loop (afsa.py 264-277):
`current_fish = population[i]`, draw a behavior, apply it against the
unmodified population snapshot.  The prey trial directions for this call are
the slice `R.dirDraw iter i` of the direction stream. -/
def moveFish {n : ℕ} (A : ArtificialFishSwarmAlgorithm) (f : Vec n → WithBot ℝ)
    (lower upper : Vec n) (R : RandomSource n) (iter i : ℕ)
    (population : List (Vec n)) : Vec n :=
  let current := population.getD i (fun _ => 0)
  let dirs := R.dirDraw iter i
  match R.behDraw iter i with
  | Behavior.prey => prey_behavior A f lower upper dirs current
  | Behavior.swarm => swarm_behavior A f lower upper dirs current population
  | Behavior.follow => follow_behavior A f lower upper dirs current population

/-- The new population of one generation (afsa.py 262-277): for each index
`i < num_fish`, the result of that fish's behavior against the snapshot. -/
def newPopulation {n : ℕ} (A : ArtificialFishSwarmAlgorithm)
    (f : Vec n → WithBot ℝ) (lower upper : Vec n) (R : RandomSource n)
    (iter : ℕ) (population : List (Vec n)) : List (Vec n) :=
  (List.range A.num_fish).map (fun i => moveFish A f lower upper R iter i population)

/-- The sequential best-update scan (afsa.py 279-283): each new position whose
fitness strictly exceeds the running best replaces it. -/
def updateBest {n : ℕ} (f : Vec n → WithBot ℝ)
    (best : Option (Vec n) × WithBot ℝ) (candidates : List (Vec n)) :
    Option (Vec n) × WithBot ℝ :=
  candidates.foldl (fun b q => if b.2 < f q then (some q, f q) else b) best

/-- The initial best (afsa.py 254-258): `np.argmax` over the initial fitness
values, ties resolved to the first occurrence.  `np.argmax` raises on an empty
array; the `[]` case below is unreachable junk kept only to make the model
total. -/
def bestOfPopulation {n : ℕ} (f : Vec n → WithBot ℝ) (population : List (Vec n)) :
    Option (Vec n) × WithBot ℝ :=
  match population with
  | [] => (none, ⊥)
  | p :: ps => updateBest f (some p, f p) ps

/-- One generation of the loop (afsa.py 261-286): build the new population
from the snapshot, scan it for best updates, replace the population. -/
def runGen {n : ℕ} (A : ArtificialFishSwarmAlgorithm) (f : Vec n → WithBot ℝ)
    (lower upper : Vec n) (R : RandomSource n)
    (st : List (Vec n) × (Option (Vec n) × WithBot ℝ)) (iter : ℕ) :
    List (Vec n) × (Option (Vec n) × WithBot ℝ) :=
  let newPop := newPopulation A f lower upper R iter st.1
  (newPop, updateBest f st.2 newPop)

/-- The state (population, best) after `k` generations of `optimize`,
starting from the freshly initialized population and its best. -/
def genState {n : ℕ} (A : ArtificialFishSwarmAlgorithm) (f : Vec n → WithBot ℝ)
    (lower upper : Vec n) (R : RandomSource n) (k : ℕ) :
    List (Vec n) × (Option (Vec n) × WithBot ℝ) :=
  let pop0 := initPopulation A lower upper R
  (List.range k).foldl (runGen A f lower upper R) (pop0, bestOfPopulation f pop0)

/-- Model of `ArtificialFishSwarmAlgorithm.optimize` (afsa.py 234-292).
`st` is the instance state (`self.best_solution`, `self.best_fitness`) on
entry; lines 257-258 overwrite it from the fresh population before the loop,
so it is never read.  Returns the `(best_solution, best_fitness)` pair and
the instance state left behind. -/
def optimize {n : ℕ} (A : ArtificialFishSwarmAlgorithm) (st : AFSAState n)
    (f : Vec n → WithBot ℝ) (lower upper : Vec n) (R : RandomSource n) :
    (Option (Vec n) × WithBot ℝ) × AFSAState n :=
  let final := genState A f lower upper R A.max_iterations
  (final.2, ⟨final.2.1, final.2.2⟩)

/-- Configuration of `TrafficSignalOptimizer.__init__` (afsa.py 300-318),
with the source defaults. -/
structure TrafficSignalOptimizer where
  num_phases : ℕ
  min_green_time : ℝ := 10
  max_green_time : ℝ := 120
  cycle_time_constraint : ℝ := 180

/-- Model of `TrafficSignalOptimizer.fitness_function` (afsa.py 320-366).
Returns `⊥` (i.e. `-inf`) when the total green time exceeds the cycle-time
constraint, else the weighted objective.  Real division models float division;
this is exact for nonzero divisors (numpy turns a zero divisor into inf/nan,
which has no counterpart here). -/
def fitness_function (T : TrafficSignalOptimizer) (solution : Vec T.num_phases)
    (traffic_volumes queue_lengths waiting_times : Vec T.num_phases)
    (emergency_priority : Option (Vec T.num_phases)) : WithBot ℝ :=
  if T.cycle_time_constraint < ∑ i, solution i then ⊥
  else
    let throughput := ∑ i, solution i * traffic_volumes i
    let queue_reduction := ∑ i, solution i * queue_lengths i
    let waiting_time_reduction := ∑ i, solution i / waiting_times i
    let emergency_score : ℝ :=
      match emergency_priority with
      | none => 0
      | some e => ∑ i, solution i * e i
    ((0.4 * throughput + 0.3 * queue_reduction + 0.2 * waiting_time_reduction
        + 0.1 * emergency_score : ℝ) : WithBot ℝ)

/-- The dictionary returned by `optimize_signal_timings` (afsa.py 405-410). -/
structure OptimizationResult (n : ℕ) where
  green_times : Vec n
  cycle_time : ℝ
  phase_proportions : Vec n
  fitness : WithBot ℝ

/-- Model of `TrafficSignalOptimizer.optimize_signal_timings` (afsa.py
368-410): bounds are `[min_green_time] * num_phases` and
`[max_green_time] * num_phases`, the fitness closure is `fitness_function`
over the given traffic context, and the result dictionary is built from the
returned best.  The AFSA instance `A` carries the hyperparameters (the source
constructs it with defaults at afsa.py 318); `st` is its instance state.
`best_solution` is `None` only in the unreachable empty-population case, for
which `getD` supplies the zero vector. -/
def optimize_signal_timings (T : TrafficSignalOptimizer)
    (A : ArtificialFishSwarmAlgorithm) (st : AFSAState T.num_phases)
    (traffic_volumes queue_lengths waiting_times : Vec T.num_phases)
    (emergency_priority : Option (Vec T.num_phases))
    (R : RandomSource T.num_phases) :
    OptimizationResult T.num_phases × AFSAState T.num_phases :=
  let lower : Vec T.num_phases := fun _ => T.min_green_time
  let upper : Vec T.num_phases := fun _ => T.max_green_time
  let f := fun s =>
    fitness_function T s traffic_volumes queue_lengths waiting_times emergency_priority
  let r := optimize A st f lower upper R
  let best_solution := r.1.1.getD (fun _ => 0)
  let total := ∑ i, best_solution i
  (⟨best_solution, total, fun i => best_solution i / total, r.1.2⟩, r.2)

/-! General lemmas about the best-update scan. -/

theorem updateBest_snd {n : ℕ} (f : Vec n → WithBot ℝ) (l : List (Vec n)) :
    ∀ b : Option (Vec n) × WithBot ℝ,
      (updateBest f b l).2 = l.foldl (fun m q => max m (f q)) b.2 := by
  induction l with
  | nil => intro b; rfl
  | cons q l ih =>
      intro b
      simp only [updateBest, List.foldl_cons] at *
      by_cases h : b.2 < f q
      · rw [if_pos h, ih, max_eq_right h.le]
      · rw [if_neg h, ih, max_eq_left (not_lt.mp h)]

theorem le_foldl_max {n : ℕ} (f : Vec n → WithBot ℝ) (l : List (Vec n)) :
    ∀ m : WithBot ℝ, m ≤ l.foldl (fun m q => max m (f q)) m := by
  induction l with
  | nil => intro m; exact le_rfl
  | cons q l ih =>
      intro m
      simp only [List.foldl_cons]
      exact le_trans (le_max_left m (f q)) (ih (max m (f q)))

theorem genState_succ {n : ℕ} (A : ArtificialFishSwarmAlgorithm)
    (f : Vec n → WithBot ℝ) (lower upper : Vec n) (R : RandomSource n) (k : ℕ) :
    genState A f lower upper R (k + 1) =
      runGen A f lower upper R (genState A f lower upper R k) k := by
  simp [genState, List.range_succ]

/-- CLAIM C1: the fitness function returns `-inf` exactly when the candidate's
total exceeds the cycle-time constraint, and otherwise the weighted sum
`0.4·Σ gᵢvᵢ + 0.3·Σ gᵢqᵢ + 0.2·Σ gᵢ/wᵢ + 0.1·Σ gᵢeᵢ`, the last term being `0`
when `emergency_priority` is absent. -/
theorem fitness_function_formula (T : TrafficSignalOptimizer)
    (sol vol que w : Vec T.num_phases) (emer : Option (Vec T.num_phases))
    (hw : ∀ j, 0 < w j) :
    (T.cycle_time_constraint < ∑ i, sol i →
      fitness_function T sol vol que w emer = ⊥)
    ∧ (∑ i, sol i ≤ T.cycle_time_constraint →
      fitness_function T sol vol que w emer =
        ((0.4 * ∑ i, sol i * vol i) + 0.3 * (∑ i, sol i * que i)
          + 0.2 * (∑ i, sol i / w i)
          + 0.1 * (Option.elim emer 0 (fun e => ∑ i, sol i * e i)) : ℝ)) := by
  constructor
  · intro h
    simp only [fitness_function, if_pos h]
  · intro h
    rw [fitness_function.eq_def, if_neg (not_lt.mpr h)]
    cases emer <;> simp [Option.elim]

/-- Witness for C1 at a concrete one-phase context. -/
theorem fitness_function_formula_witness :
    (∀ j : Fin 1, (0 : ℝ) < (fun _ => (1 : ℝ)) j) ∧
      fitness_function ⟨1, 10, 120, 180⟩ (fun _ => 10) (fun _ => 2) (fun _ => 3)
          (fun _ => 1) none =
        ((0.4 * (10 * 2) + 0.3 * (10 * 3) + 0.2 * (10 / 1) + 0.1 * 0 : ℝ) :
          WithBot ℝ) := by
  refine ⟨fun j => one_pos, ?_⟩
  have h := (fitness_function_formula ⟨1, 10, 120, 180⟩ (fun _ => 10) (fun _ => 2)
      (fun _ => 3) (fun _ => 1) none (fun j => one_pos)).2 (by
        simp [Fin.sum_univ_one]; norm_num)
  simpa [Fin.sum_univ_one] using h

/-- CLAIM C4: within one `optimize` invocation the global best fitness starts
as the running maximum of the initial population's fitness values over `-inf`
(so it is `-inf` until a feasible candidate is evaluated), after each
generation it equals the maximum of its previous value and the fitness values
of the newly computed candidates, and it is monotonically non-decreasing
across successive generations. -/
theorem best_fitness_monotone :
    (∀ (n : ℕ) (f : Vec n → WithBot ℝ) (p : Vec n) (ps : List (Vec n)),
      (bestOfPopulation f (p :: ps)).2 =
        (p :: ps).foldl (fun m q => max m (f q)) ⊥)
    ∧ (∀ (n : ℕ) (A : ArtificialFishSwarmAlgorithm) (f : Vec n → WithBot ℝ)
        (lower upper : Vec n) (R : RandomSource n)
        (st : List (Vec n) × (Option (Vec n) × WithBot ℝ)) (iter : ℕ),
      (runGen A f lower upper R st iter).2.2 =
        (newPopulation A f lower upper R iter st.1).foldl
          (fun m q => max m (f q)) st.2.2)
    ∧ (∀ (n : ℕ) (A : ArtificialFishSwarmAlgorithm) (f : Vec n → WithBot ℝ)
        (lower upper : Vec n) (R : RandomSource n)
        (st : List (Vec n) × (Option (Vec n) × WithBot ℝ)) (iter : ℕ),
      st.2.2 ≤ (runGen A f lower upper R st iter).2.2)
    ∧ (∀ (n : ℕ) (A : ArtificialFishSwarmAlgorithm) (f : Vec n → WithBot ℝ)
        (lower upper : Vec n) (R : RandomSource n) (k : ℕ),
      (genState A f lower upper R k).2.2 ≤
        (genState A f lower upper R (k + 1)).2.2) := by
  have hgen : ∀ (n : ℕ) (A : ArtificialFishSwarmAlgorithm)
      (f : Vec n → WithBot ℝ) (lower upper : Vec n) (R : RandomSource n)
      (st : List (Vec n) × (Option (Vec n) × WithBot ℝ)) (iter : ℕ),
      (runGen A f lower upper R st iter).2.2 =
        (newPopulation A f lower upper R iter st.1).foldl
          (fun m q => max m (f q)) st.2.2 := by
    intro n A f lower upper R st iter
    simp only [runGen]
    exact updateBest_snd f _ st.2
  have hmono : ∀ (n : ℕ) (A : ArtificialFishSwarmAlgorithm)
      (f : Vec n → WithBot ℝ) (lower upper : Vec n) (R : RandomSource n)
      (st : List (Vec n) × (Option (Vec n) × WithBot ℝ)) (iter : ℕ),
      st.2.2 ≤ (runGen A f lower upper R st iter).2.2 := by
    intro n A f lower upper R st iter
    rw [hgen]
    exact le_foldl_max f _ st.2.2
  refine ⟨?_, hgen, hmono, ?_⟩
  · intro n f p ps
    simp only [bestOfPopulation, List.foldl_cons, max_eq_right (bot_le : ⊥ ≤ f p)]
    exact updateBest_snd f ps (some p, f p)
  · intro n A f lower upper R k
    rw [genState_succ]
    exact hmono n A f lower upper R _ k

/-! The best pair carried by the loop is `⊥` or the fitness of its own
solution; this drives the feasibility bound. -/

def bestInv {n : ℕ} (f : Vec n → WithBot ℝ) (b : Option (Vec n) × WithBot ℝ) : Prop :=
  b.2 = ⊥ ∨ ∃ v, b.1 = some v ∧ b.2 = f v

theorem updateBest_inv {n : ℕ} (f : Vec n → WithBot ℝ) (l : List (Vec n)) :
    ∀ b, bestInv f b → bestInv f (updateBest f b l) := by
  induction l with
  | nil => intro b hb; exact hb
  | cons q l ih =>
      intro b hb
      simp only [updateBest, List.foldl_cons]
      by_cases h : b.2 < f q
      · rw [if_pos h]
        exact ih _ (Or.inr ⟨q, rfl, rfl⟩)
      · rw [if_neg h]
        exact ih _ hb

theorem bestOfPopulation_inv {n : ℕ} (f : Vec n → WithBot ℝ)
    (population : List (Vec n)) : bestInv f (bestOfPopulation f population) := by
  cases population with
  | nil => exact Or.inl rfl
  | cons p ps =>
      exact updateBest_inv f ps _ (Or.inr ⟨p, rfl, rfl⟩)

theorem genState_inv {n : ℕ} (A : ArtificialFishSwarmAlgorithm)
    (f : Vec n → WithBot ℝ) (lower upper : Vec n) (R : RandomSource n) :
    ∀ k, bestInv f (genState A f lower upper R k).2 := by
  intro k
  induction k with
  | zero => exact bestOfPopulation_inv f _
  | succ k ih =>
      rw [genState_succ]
      exact updateBest_inv f _ _ ih

theorem sum_le_of_fitness_ne_bot (T : TrafficSignalOptimizer)
    (sol vol que w : Vec T.num_phases) (emer : Option (Vec T.num_phases))
    (h : fitness_function T sol vol que w emer ≠ ⊥) :
    ∑ i, sol i ≤ T.cycle_time_constraint := by
  by_contra hc
  exact h (by simp only [fitness_function, if_pos (not_le.mp hc)])

/-- CLAIM C2: whenever the returned fitness exceeds `-inf`, the sum of the
returned green times respects the cycle-time constraint. -/
theorem feasibility_bound (T : TrafficSignalOptimizer)
    (A : ArtificialFishSwarmAlgorithm) (st : AFSAState T.num_phases)
    (vol que w : Vec T.num_phases) (emer : Option (Vec T.num_phases))
    (R : RandomSource T.num_phases)
    (h : ⊥ < ((optimize_signal_timings T A st vol que w emer R).1).fitness) :
    ∑ i, ((optimize_signal_timings T A st vol que w emer R).1).green_times i
      ≤ T.cycle_time_constraint := by
  have hg : ((optimize_signal_timings T A st vol que w emer R).1).green_times =
      ((genState A (fun s => fitness_function T s vol que w emer)
        (fun _ => T.min_green_time) (fun _ => T.max_green_time) R
        A.max_iterations).2.1).getD (fun _ => 0) := rfl
  have hf : ((optimize_signal_timings T A st vol que w emer R).1).fitness =
      (genState A (fun s => fitness_function T s vol que w emer)
        (fun _ => T.min_green_time) (fun _ => T.max_green_time) R
        A.max_iterations).2.2 := rfl
  rcases genState_inv A (fun s => fitness_function T s vol que w emer)
      (fun _ => T.min_green_time) (fun _ => T.max_green_time) R
      A.max_iterations with h0 | ⟨v, hv1, hv2⟩
  · rw [hf, h0] at h
    exact absurd h (lt_irrefl ⊥)
  · rw [hf, hv2] at h
    have hsum := sum_le_of_fitness_ne_bot T v vol que w emer h.ne'
    rw [hg, hv1]
    simpa using hsum

/-! Concrete fixtures used by the witnesses: one phase, one fish, zero
generations, all unit draws equal to 1/2. -/

def T1 : TrafficSignalOptimizer := ⟨1, 10, 10, 180⟩

def A1 : ArtificialFishSwarmAlgorithm :=
  { num_fish := 1, max_iterations := 0 }

def st1 : AFSAState 1 := ⟨none, ⊥⟩

def Rhalf : RandomSource 1 :=
  ⟨fun _ _ => 1 / 2, fun _ _ _ => fun _ => 0, fun _ _ => Behavior.prey⟩

theorem T1_run_fitness :
    ((optimize_signal_timings T1 A1 st1 (fun _ => 0) (fun _ => 0) (fun _ => 1)
        none Rhalf).1).fitness = ((2 : ℝ) : WithBot ℝ) := by
  show fitness_function T1
      (fun j => T1.min_green_time +
        (T1.max_green_time - T1.min_green_time) * Rhalf.initDraw 0 j)
      (fun _ => 0) (fun _ => 0) (fun _ => 1) none = ((2 : ℝ) : WithBot ℝ)
  rw [fitness_function.eq_def]
  rw [if_neg (by norm_num [Fin.sum_univ_one, T1, Rhalf])]
  norm_num [Fin.sum_univ_one, T1, Rhalf]

/-- Witness for C2 at the concrete one-phase run: its fitness exceeds `-inf`
and its total green time respects the constraint. -/
theorem feasibility_bound_witness :
    ⊥ < ((optimize_signal_timings T1 A1 st1 (fun _ => 0) (fun _ => 0)
        (fun _ => 1) none Rhalf).1).fitness
    ∧ ∑ i, ((optimize_signal_timings T1 A1 st1 (fun _ => 0) (fun _ => 0)
        (fun _ => 1) none Rhalf).1).green_times i ≤ T1.cycle_time_constraint := by
  have h : ⊥ < ((optimize_signal_timings T1 A1 st1 (fun _ => 0) (fun _ => 0)
      (fun _ => 1) none Rhalf).1).fitness := by
    rw [T1_run_fitness]
    exact WithBot.bot_lt_coe 2
  exact ⟨h, feasibility_bound T1 A1 st1 (fun _ => 0) (fun _ => 0) (fun _ => 1)
    none Rhalf h⟩

/-! Bounds containment. -/

def inBounds {n : ℕ} (lower upper v : Vec n) : Prop :=
  ∀ j, lower j ≤ v j ∧ v j ≤ upper j

theorem clampToBounds_inBounds {n : ℕ} (lower upper v : Vec n)
    (hlu : ∀ j, lower j ≤ upper j) :
    inBounds lower upper (clampToBounds lower upper v) := by
  intro j
  exact ⟨le_max_left _ _, max_le (hlu j) (min_le_left _ _)⟩

theorem preyGo_inBounds {n : ℕ} (A : ArtificialFishSwarmAlgorithm)
    (f : Vec n → WithBot ℝ) (lower upper : Vec n) (dirs : ℕ → Vec n)
    (current : Vec n) (cf : WithBot ℝ) (hlu : ∀ j, lower j ≤ upper j)
    (hcur : inBounds lower upper current) :
    ∀ fuel t, inBounds lower upper (preyGo A f lower upper dirs current cf t fuel) := by
  intro fuel
  induction fuel with
  | zero => intro t; exact hcur
  | succ fuel ih =>
      intro t
      simp only [preyGo]
      by_cases h : cf < f (preyTrial A lower upper dirs current t)
      · rw [if_pos h]
        exact clampToBounds_inBounds lower upper _ hlu
      · rw [if_neg h]
        exact ih (t + 1)

theorem prey_behavior_inBounds {n : ℕ} (A : ArtificialFishSwarmAlgorithm)
    (f : Vec n → WithBot ℝ) (lower upper : Vec n) (dirs : ℕ → Vec n)
    (current : Vec n) (hlu : ∀ j, lower j ≤ upper j)
    (hcur : inBounds lower upper current) :
    inBounds lower upper (prey_behavior A f lower upper dirs current) :=
  preyGo_inBounds A f lower upper dirs current (f current) hlu hcur A.try_number 0

theorem swarm_behavior_inBounds {n : ℕ} (A : ArtificialFishSwarmAlgorithm)
    (f : Vec n → WithBot ℝ) (lower upper : Vec n) (dirs : ℕ → Vec n)
    (current : Vec n) (population : List (Vec n))
    (hlu : ∀ j, lower j ≤ upper j) (hcur : inBounds lower upper current) :
    inBounds lower upper (swarm_behavior A f lower upper dirs current population) := by
  simp only [swarm_behavior]
  split_ifs
  · exact hcur
  · exact prey_behavior_inBounds A f lower upper dirs current hlu hcur
  · exact clampToBounds_inBounds lower upper _ hlu
  · exact prey_behavior_inBounds A f lower upper dirs current hlu hcur

theorem follow_behavior_inBounds {n : ℕ} (A : ArtificialFishSwarmAlgorithm)
    (f : Vec n → WithBot ℝ) (lower upper : Vec n) (dirs : ℕ → Vec n)
    (current : Vec n) (population : List (Vec n))
    (hlu : ∀ j, lower j ≤ upper j) (hcur : inBounds lower upper current) :
    inBounds lower upper (follow_behavior A f lower upper dirs current population) := by
  simp only [follow_behavior]
  split
  · exact prey_behavior_inBounds A f lower upper dirs current hlu hcur
  · split_ifs
    · exact prey_behavior_inBounds A f lower upper dirs current hlu hcur
    · exact prey_behavior_inBounds A f lower upper dirs current hlu hcur
    · exact clampToBounds_inBounds lower upper _ hlu

theorem moveFish_inBounds {n : ℕ} (A : ArtificialFishSwarmAlgorithm)
    (f : Vec n → WithBot ℝ) (lower upper : Vec n) (R : RandomSource n)
    (iter i : ℕ) (population : List (Vec n))
    (hlu : ∀ j, lower j ≤ upper j)
    (hpop : ∀ v ∈ population, inBounds lower upper v)
    (hi : i < population.length) :
    inBounds lower upper (moveFish A f lower upper R iter i population) := by
  have hcur : inBounds lower upper (population.getD i (fun _ => 0)) := by
    rw [List.getD_eq_getElem population _ hi]
    exact hpop _ (List.getElem_mem hi)
  simp only [moveFish]
  cases R.behDraw iter i
  · exact prey_behavior_inBounds A f lower upper _ _ hlu hcur
  · exact swarm_behavior_inBounds A f lower upper _ _ population hlu hcur
  · exact follow_behavior_inBounds A f lower upper _ _ population hlu hcur

theorem initPopulation_spec {n : ℕ} (A : ArtificialFishSwarmAlgorithm)
    (lower upper : Vec n) (R : RandomSource n)
    (hlu : ∀ j, lower j ≤ upper j)
    (hu : ∀ i j, 0 ≤ R.initDraw i j ∧ R.initDraw i j ≤ 1) :
    (∀ v ∈ initPopulation A lower upper R, inBounds lower upper v)
    ∧ (initPopulation A lower upper R).length = A.num_fish := by
  constructor
  · intro v hv
    simp only [initPopulation, List.mem_map, List.mem_range] at hv
    obtain ⟨i, _, rfl⟩ := hv
    intro j
    have h0 := (hu i j).1
    have h1 := (hu i j).2
    have hd : 0 ≤ upper j - lower j := sub_nonneg.mpr (hlu j)
    constructor
    · show lower j ≤ lower j + (upper j - lower j) * R.initDraw i j
      nlinarith [mul_nonneg hd h0]
    · show lower j + (upper j - lower j) * R.initDraw i j ≤ upper j
      nlinarith [mul_le_of_le_one_right hd h1]
  · simp [initPopulation]

theorem genState_pop_spec {n : ℕ} (A : ArtificialFishSwarmAlgorithm)
    (f : Vec n → WithBot ℝ) (lower upper : Vec n) (R : RandomSource n)
    (hlu : ∀ j, lower j ≤ upper j)
    (hu : ∀ i j, 0 ≤ R.initDraw i j ∧ R.initDraw i j ≤ 1) :
    ∀ k, (∀ v ∈ (genState A f lower upper R k).1, inBounds lower upper v)
      ∧ (genState A f lower upper R k).1.length = A.num_fish := by
  intro k
  induction k with
  | zero => exact initPopulation_spec A lower upper R hlu hu
  | succ k ih =>
      rw [genState_succ]
      constructor
      · intro v hv
        simp only [runGen, newPopulation, List.mem_map, List.mem_range] at hv
        obtain ⟨i, hi, rfl⟩ := hv
        exact moveFish_inBounds A f lower upper R k i _ hlu ih.1 (ih.2 ▸ hi)
      · simp [runGen, newPopulation]

/-- CLAIM C3: with well-ordered bounds, every coordinate of every individual
held in the population — initially and after every generation's update by any
of the three behaviors — lies within `[lower j, upper j]`. -/
theorem bounds_containment {n : ℕ} (A : ArtificialFishSwarmAlgorithm)
    (f : Vec n → WithBot ℝ) (lower upper : Vec n) (R : RandomSource n)
    (hlu : ∀ j, lower j ≤ upper j)
    (hu : ∀ i j, 0 ≤ R.initDraw i j ∧ R.initDraw i j ≤ 1) :
    ∀ k, ∀ v ∈ (genState A f lower upper R k).1, inBounds lower upper v :=
  fun k => (genState_pop_spec A f lower upper R hlu hu k).1

/-- Witness for C3 at the concrete one-fish setup. -/
theorem bounds_containment_witness :
    (∀ i j, 0 ≤ Rhalf.initDraw i j ∧ Rhalf.initDraw i j ≤ 1)
    ∧ ∀ v ∈ (genState A1 (fun _ => (⊥ : WithBot ℝ)) (fun _ => 10) (fun _ => 10)
        Rhalf 0).1, inBounds (fun _ => 10) (fun _ => 10) v := by
  have hu : ∀ i j, 0 ≤ Rhalf.initDraw i j ∧ Rhalf.initDraw i j ≤ 1 := by
    intro i j
    constructor <;> norm_num [Rhalf]
  exact ⟨hu, bounds_containment A1 (fun _ => (⊥ : WithBot ℝ)) (fun _ => 10)
    (fun _ => 10) Rhalf (fun j => le_rfl) hu 0⟩

/-! First-improvement acceptance in the prey loop. -/

theorem preyGo_of_none_improving {n : ℕ} (A : ArtificialFishSwarmAlgorithm)
    (f : Vec n → WithBot ℝ) (lower upper : Vec n) (dirs : ℕ → Vec n)
    (current : Vec n) (cf : WithBot ℝ) :
    ∀ fuel t, (∀ s, t ≤ s → s < t + fuel →
        ¬ cf < f (preyTrial A lower upper dirs current s)) →
      preyGo A f lower upper dirs current cf t fuel = current := by
  intro fuel
  induction fuel with
  | zero => intro t _; rfl
  | succ fuel ih =>
      intro t h
      simp only [preyGo]
      rw [if_neg (h t le_rfl (by omega))]
      exact ih (t + 1) (fun s hs1 hs2 => h s (by omega) (by omega))

theorem preyGo_first {n : ℕ} (A : ArtificialFishSwarmAlgorithm)
    (f : Vec n → WithBot ℝ) (lower upper : Vec n) (dirs : ℕ → Vec n)
    (current : Vec n) (cf : WithBot ℝ) (t0 : ℕ)
    (h3 : cf < f (preyTrial A lower upper dirs current t0)) :
    ∀ fuel t, t ≤ t0 → t0 < t + fuel →
      (∀ s, t ≤ s → s < t0 → ¬ cf < f (preyTrial A lower upper dirs current s)) →
      preyGo A f lower upper dirs current cf t fuel =
        preyTrial A lower upper dirs current t0 := by
  intro fuel
  induction fuel with
  | zero => intro t h1 h2 _; omega
  | succ fuel ih =>
      intro t h1 h2 h4
      simp only [preyGo]
      by_cases teq : t = t0
      · subst teq
        rw [if_pos h3]
      · have htlt : t < t0 := lt_of_le_of_ne h1 teq
        rw [if_neg (h4 t le_rfl htlt)]
        exact ih (t + 1) (by omega) (by omega)
          (fun s hs1 hs2 => h4 s (by omega) hs2)

/-- CLAIM C6: the prey behavior accepts and returns the first sampled
position — step `visual_range` along the drawn direction, clamped to
bounds — whose fitness strictly exceeds the current fitness; if none of the
`try_number` samples improves, it returns the current position unchanged. -/
theorem prey_first_improvement {n : ℕ} (A : ArtificialFishSwarmAlgorithm)
    (f : Vec n → WithBot ℝ) (lower upper : Vec n) (dirs : ℕ → Vec n)
    (current : Vec n) :
    (∀ t0, t0 < A.try_number →
      f current < f (preyTrial A lower upper dirs current t0) →
      (∀ s, s < t0 → ¬ f current < f (preyTrial A lower upper dirs current s)) →
      prey_behavior A f lower upper dirs current =
        preyTrial A lower upper dirs current t0)
    ∧ ((∀ t, t < A.try_number →
        ¬ f current < f (preyTrial A lower upper dirs current t)) →
      prey_behavior A f lower upper dirs current = current)
    ∧ (∀ t, preyTrial A lower upper dirs current t =
        clampToBounds lower upper
          (fun j => current j + A.visual_range * dirs t j)) := by
  refine ⟨?_, ?_, fun t => rfl⟩
  · intro t0 ht0 h3 h4
    exact preyGo_first A f lower upper dirs current (f current) t0 h3
      A.try_number 0 (Nat.zero_le t0) (by omega) (fun s _ hs2 => h4 s hs2)
  · intro h
    exact preyGo_of_none_improving A f lower upper dirs current (f current)
      A.try_number 0 (fun s _ hs2 => h s (by omega))

/-- Witness for C6: with a constantly `-inf` fitness nothing improves, so the
prey behavior returns the current position unchanged. -/
theorem prey_first_improvement_witness :
    prey_behavior A1 (fun _ => (⊥ : WithBot ℝ)) ((fun _ => 0) : Vec 1)
      ((fun _ => 1) : Vec 1) ((fun _ => fun _ => 0) : ℕ → Vec 1)
      ((fun _ => 0) : Vec 1) = ((fun _ => 0) : Vec 1) :=
  (prey_first_improvement A1 (fun _ => (⊥ : WithBot ℝ)) ((fun _ => 0) : Vec 1)
    ((fun _ => 1) : Vec 1) ((fun _ => fun _ => 0) : ℕ → Vec 1)
    ((fun _ => 0) : Vec 1)).2.1 (fun t _ => by simp)

/-- CLAIM C7: the swarm behavior, over the neighbor set
`{p : 0 < ‖p − current‖ < visual_range}`, returns the current position when
that set is empty; delegates to prey when `|neighbors|/num_fish` exceeds the
crowd factor; moves by `step_size` along the normalized direction toward the
neighbor centroid, clamped to bounds, when the centroid's fitness strictly
exceeds the current fitness; and delegates to prey otherwise. -/
theorem swarm_cases {n : ℕ} (A : ArtificialFishSwarmAlgorithm)
    (f : Vec n → WithBot ℝ) (lower upper : Vec n) (dirs : ℕ → Vec n)
    (current : Vec n) (population : List (Vec n)) :
    (neighborsOf A current population = [] →
      swarm_behavior A f lower upper dirs current population = current)
    ∧ (neighborsOf A current population ≠ [] →
      A.crowd_factor <
        ((neighborsOf A current population).length : ℝ) / (A.num_fish : ℝ) →
      swarm_behavior A f lower upper dirs current population =
        prey_behavior A f lower upper dirs current)
    ∧ (neighborsOf A current population ≠ [] →
      ¬ A.crowd_factor <
        ((neighborsOf A current population).length : ℝ) / (A.num_fish : ℝ) →
      f current < f (swarmCenter (neighborsOf A current population)) →
      swarm_behavior A f lower upper dirs current population =
        clampToBounds lower upper
          (fun j => current j + A.step_size *
            normalizeDir
              (fun j2 => swarmCenter (neighborsOf A current population) j2 -
                current j2) j))
    ∧ (neighborsOf A current population ≠ [] →
      ¬ A.crowd_factor <
        ((neighborsOf A current population).length : ℝ) / (A.num_fish : ℝ) →
      ¬ f current < f (swarmCenter (neighborsOf A current population)) →
      swarm_behavior A f lower upper dirs current population =
        prey_behavior A f lower upper dirs current) := by
  refine ⟨?_, ?_, ?_, ?_⟩
  · intro h1
    simp only [swarm_behavior]
    rw [if_pos h1]
  · intro h1 h2
    simp only [swarm_behavior]
    rw [if_neg h1, if_pos h2]
  · intro h1 h2 h3
    simp only [swarm_behavior]
    rw [if_neg h1, if_neg h2, if_pos h3]
  · intro h1 h2 h3
    simp only [swarm_behavior]
    rw [if_neg h1, if_neg h2, if_neg h3]

/-- Witness for C7: a population consisting only of the current position has
no neighbors (the zero-distance condition excludes self), so the swarm
behavior returns the current position unchanged. -/
theorem swarm_cases_witness :
    neighborsOf A1 ((fun _ => 0) : Vec 1) [((fun _ => 0) : Vec 1)] = []
    ∧ swarm_behavior A1 (fun _ => (⊥ : WithBot ℝ)) ((fun _ => 0) : Vec 1)
        ((fun _ => 1) : Vec 1) ((fun _ => fun _ => 0) : ℕ → Vec 1)
        ((fun _ => 0) : Vec 1) [((fun _ => 0) : Vec 1)] =
      ((fun _ => 0) : Vec 1) := by
  have hn : neighborsOf A1 ((fun _ => 0) : Vec 1) [((fun _ => 0) : Vec 1)] = [] := by
    simp [neighborsOf, vecDist, vecNorm]
  exact ⟨hn, (swarm_cases A1 (fun _ => (⊥ : WithBot ℝ)) ((fun _ => 0) : Vec 1)
    ((fun _ => 1) : Vec 1) ((fun _ => fun _ => 0) : ℕ → Vec 1)
    ((fun _ => 0) : Vec 1) [((fun _ => 0) : Vec 1)]).1 hn⟩

/-- CLAIM C10: the result of `optimize` is independent of whatever
`best_solution` / `best_fitness` a previous call left on the instance:
lines 257-258 overwrite both from the freshly initialized population before
the generational loop, so the instance state is never read.  Moreover the
state left behind is exactly the returned pair. -/
theorem optimize_fresh_state {n : ℕ} (A : ArtificialFishSwarmAlgorithm)
    (st₁ st₂ : AFSAState n) (f : Vec n → WithBot ℝ) (lower upper : Vec n)
    (R : RandomSource n) :
    optimize A st₁ f lower upper R = optimize A st₂ f lower upper R
    ∧ (optimize A st₁ f lower upper R).2 =
        ⟨(optimize A st₁ f lower upper R).1.1,
          (optimize A st₁ f lower upper R).1.2⟩ :=
  ⟨rfl, rfl⟩

/-! Determinism and randomness: the source draws from the ambient global
generators and accepts no seed; two runs agreeing on every declared input can
still disagree when the ambient random state differs. -/

def T2 : TrafficSignalOptimizer := ⟨1, 10, 120, 180⟩

def Rzero : RandomSource 1 :=
  ⟨fun _ _ => 0, fun _ _ _ => fun _ => 0, fun _ _ => Behavior.prey⟩

def Rone : RandomSource 1 :=
  ⟨fun _ _ => 1, fun _ _ _ => fun _ => 0, fun _ _ => Behavior.prey⟩

/-- Counterexample to C5: the optimizer takes no seed input, and with all
declared inputs (dims, bounds, traffic context, hyperparameters) identical,
two runs that consume different ambient random draws return different
green-time vectors, so the result is not a function of the declared inputs. -/
theorem determinism_counterexample :
    ((optimize_signal_timings T2 A1 st1 (fun _ => 0) (fun _ => 0) (fun _ => 1)
        none Rzero).1).green_times ≠
      ((optimize_signal_timings T2 A1 st1 (fun _ => 0) (fun _ => 0) (fun _ => 1)
        none Rone).1).green_times := by
  intro h
  have h0 := congrFun h ⟨0, Nat.one_pos⟩
  have e1 : ((optimize_signal_timings T2 A1 st1 (fun _ => 0) (fun _ => 0)
      (fun _ => 1) none Rzero).1).green_times ⟨0, Nat.one_pos⟩ =
      T2.min_green_time + (T2.max_green_time - T2.min_green_time) *
        Rzero.initDraw 0 ⟨0, Nat.one_pos⟩ := rfl
  have e2 : ((optimize_signal_timings T2 A1 st1 (fun _ => 0) (fun _ => 0)
      (fun _ => 1) none Rone).1).green_times ⟨0, Nat.one_pos⟩ =
      T2.min_green_time + (T2.max_green_time - T2.min_green_time) *
        Rone.initDraw 0 ⟨0, Nat.one_pos⟩ := rfl
  rw [e1, e2] at h0
  norm_num [T2, Rzero, Rone] at h0

/-- CLAIM C5 (amended): the algorithm is a deterministic function of its
declared inputs together with the ambient random-draw state: two runs with
identical inputs and identical random draws produce identical results. -/
theorem determinism_given_random_state (T : TrafficSignalOptimizer)
    (A : ArtificialFishSwarmAlgorithm) (st : AFSAState T.num_phases)
    (vol que w : Vec T.num_phases) (emer : Option (Vec T.num_phases))
    (R₁ R₂ : RandomSource T.num_phases) (h : R₁ = R₂) :
    optimize_signal_timings T A st vol que w emer R₁ =
      optimize_signal_timings T A st vol que w emer R₂ := by
  rw [h]

/-- Witness for the amended C5 at a concrete run. -/
theorem determinism_given_random_state_witness :
    optimize_signal_timings T2 A1 st1 (fun _ => 0) (fun _ => 0) (fun _ => 1)
        none Rzero =
      optimize_signal_timings T2 A1 st1 (fun _ => 0) (fun _ => 0) (fun _ => 1)
        none Rzero :=
  determinism_given_random_state T2 A1 st1 (fun _ => 0) (fun _ => 0)
    (fun _ => 1) none Rzero Rzero rfl

/-! Missing validation: the source contains no `ConfigurationError` /
`InvalidInputError` and performs no checks on bounds or traffic context. -/

def Rhalf2 : RandomSource 2 :=
  ⟨fun _ _ => 1 / 2, fun _ _ _ => fun _ => 0, fun _ _ => Behavior.prey⟩

/-- Counterexample to C8: with `lower_bounds = [10, 20]`,
`upper_bounds = [15, 15]` (so `upper[1] < lower[1]`) nothing is raised — the
population is created (coordinate `j` is `uniform(lower[j], upper[j])`, which
Python evaluates happily for inverted bounds) and `optimize` returns a
result. -/
theorem no_bounds_validation_counterexample :
    initPopulation A1 (![10, 20]) (![15, 15]) Rhalf2 =
      [fun j => (![10, 20] : Vec 2) j +
        ((![15, 15] : Vec 2) j - (![10, 20] : Vec 2) j) * (1 / 2)]
    ∧ (optimize A1 ⟨none, ⊥⟩ (fun _ => (⊥ : WithBot ℝ)) (![10, 20]) (![15, 15])
        Rhalf2).1 =
      (some (fun j => (![10, 20] : Vec 2) j +
        ((![15, 15] : Vec 2) j - (![10, 20] : Vec 2) j) * (1 / 2)), ⊥) :=
  ⟨rfl, rfl⟩

/-- CLAIM C8 (amended): no bounds validation exists; for any bounds, inverted
or not, the population is created with `num_fish` members, a coordinate with
`upper j ≤ lower j` lands in `[upper j, lower j]` (Python's
`random.uniform(a, b)` semantics for `a > b`), and `optimize` hands back the
best of the full `max_iterations`-generation search. -/
theorem no_bounds_validation {n : ℕ} (A : ArtificialFishSwarmAlgorithm)
    (st : AFSAState n) (f : Vec n → WithBot ℝ) (lower upper : Vec n)
    (R : RandomSource n)
    (hu : ∀ i j, 0 ≤ R.initDraw i j ∧ R.initDraw i j ≤ 1) :
    (initPopulation A lower upper R).length = A.num_fish
    ∧ (∀ v ∈ initPopulation A lower upper R, ∀ j, upper j ≤ lower j →
        upper j ≤ v j ∧ v j ≤ lower j)
    ∧ (optimize A st f lower upper R).1 =
        (genState A f lower upper R A.max_iterations).2 := by
  refine ⟨by simp [initPopulation], ?_, rfl⟩
  intro v hv j hj
  simp only [initPopulation, List.mem_map, List.mem_range] at hv
  obtain ⟨i, _, rfl⟩ := hv
  have h0 := (hu i j).1
  have h1 := (hu i j).2
  have hd : upper j - lower j ≤ 0 := sub_nonpos.mpr hj
  constructor
  · show upper j ≤ lower j + (upper j - lower j) * R.initDraw i j
    nlinarith [mul_le_of_le_one_right (neg_nonneg.mpr hd) h1]
  · show lower j + (upper j - lower j) * R.initDraw i j ≤ lower j
    nlinarith [mul_nonneg (neg_nonneg.mpr hd) h0]

/-- Witness for the amended C8 at the spec's concrete inverted bounds. -/
theorem no_bounds_validation_witness :
    (∀ i j, 0 ≤ Rhalf2.initDraw i j ∧ Rhalf2.initDraw i j ≤ 1)
    ∧ ((initPopulation A1 (![10, 20]) (![15, 15]) Rhalf2).length = A1.num_fish
    ∧ (∀ v ∈ initPopulation A1 (![10, 20]) (![15, 15]) Rhalf2,
        ∀ j, (![15, 15] : Vec 2) j ≤ (![10, 20] : Vec 2) j →
          (![15, 15] : Vec 2) j ≤ v j ∧ v j ≤ (![10, 20] : Vec 2) j)
    ∧ (optimize A1 ⟨none, ⊥⟩ (fun _ => (⊥ : WithBot ℝ)) (![10, 20]) (![15, 15])
        Rhalf2).1 =
      (genState A1 (fun _ => (⊥ : WithBot ℝ)) (![10, 20]) (![15, 15]) Rhalf2
        A1.max_iterations).2) := by
  have hu : ∀ i j, 0 ≤ Rhalf2.initDraw i j ∧ Rhalf2.initDraw i j ≤ 1 := by
    intro i j
    constructor <;> norm_num [Rhalf2]
  exact ⟨hu, no_bounds_validation A1 ⟨none, ⊥⟩ (fun _ => (⊥ : WithBot ℝ))
    (![10, 20]) (![15, 15]) Rhalf2 hu⟩

/-- Counterexample to C9: with `waiting_times = [-1]` (non-positive) nothing
is raised — the search runs, `fitness_function` divides by the non-positive
waiting time, and a finished result with fitness
`0.2 · (10 / (-1)) = -2` is returned. -/
theorem no_waiting_time_validation_counterexample :
    ((optimize_signal_timings T1 A1 st1 (fun _ => 0) (fun _ => 0)
        (fun _ => -1) none Rhalf).1).fitness = ((-2 : ℝ) : WithBot ℝ) := by
  show fitness_function T1
      (fun j => T1.min_green_time +
        (T1.max_green_time - T1.min_green_time) * Rhalf.initDraw 0 j)
      (fun _ => 0) (fun _ => 0) (fun _ => -1) none = ((-2 : ℝ) : WithBot ℝ)
  rw [fitness_function.eq_def]
  rw [if_neg (by norm_num [Fin.sum_univ_one, T1, Rhalf])]
  norm_num [Fin.sum_univ_one, T1, Rhalf]

/-- CLAIM C9 (amended): no traffic-context validation exists; for any
Waiting times that are nonzero (in particular negative ones), the fitness of
a feasible candidate is computed by executing the division, not by raising. -/
theorem no_waiting_time_validation (T : TrafficSignalOptimizer)
    (sol vol que w : Vec T.num_phases) (emer : Option (Vec T.num_phases))
    (hw : ∀ j, w j ≠ 0) (h : ∑ i, sol i ≤ T.cycle_time_constraint) :
    fitness_function T sol vol que w emer =
      ((0.4 * ∑ i, sol i * vol i) + 0.3 * (∑ i, sol i * que i)
        + 0.2 * (∑ i, sol i / w i)
        + 0.1 * (Option.elim emer 0 (fun e => ∑ i, sol i * e i)) : ℝ) := by
  rw [fitness_function.eq_def, if_neg (not_lt.mpr h)]
  cases emer <;> simp [Option.elim]

/-- Witness for the amended C9 with a negative waiting time. -/
theorem no_waiting_time_validation_witness :
    (∀ j : Fin T1.num_phases, ((fun _ => (-1 : ℝ)) : Vec T1.num_phases) j ≠ 0)
    ∧ fitness_function T1 (fun _ => 10) (fun _ => 0) (fun _ => 0)
        (fun _ => -1) none = ((-2 : ℝ) : WithBot ℝ) := by
  refine ⟨fun j => by norm_num, ?_⟩
  rw [no_waiting_time_validation T1 (fun _ => 10) (fun _ => 0) (fun _ => 0)
    (fun _ => -1) none (fun j => by norm_num)
    (by norm_num [Fin.sum_univ_one, T1])]
  norm_num [T1, Fin.sum_univ_one]

end
